import Mathlib

/-!
Verification of the dwolla-billing service core (usage ingestion, weekly
billing aggregation, transfer initiation retries, and the Dwolla status
webhook) against its natural-language specification.

The embedding translates the JavaScript source into pure Lean definitions:
the Postgres tables become lists of records, each HTTP handler becomes a
function from a request and a database state to a response and a new
database state, and the network calls to the payment processor are
abstracted as oracle functions supplied by the environment.  JavaScript
numbers that carry usage quantities (`numeric` in Postgres) are modelled as
exact rationals; timestamps are modelled as integers (an instant on a
linear time axis); `Math.round` is modelled with its JavaScript
half-toward-positive-infinity semantics.
-/

namespace DwollaBilling

/-- A row of the `customers` table (sql/001_schema.sql).  `name`, `email`
and the two Dwolla hrefs are nullable; `status` defaults to "pending". -/
structure Customer where
  crm_contact_id : String
  name : Option String
  email : Option String
  dwolla_customer_href : Option String
  dwolla_funding_href : Option String
  status : String
deriving Repr, DecidableEq

/-- A row of the `usage_ledger` table (sql/001_schema.sql plus the
`invoice_id` column added by sql/002_add_invoice_id_to_usage.sql).
`units` is Postgres `numeric`, modelled as an exact rational;
`occurred_at` is a `timestamptz`, modelled as an integer instant. -/
structure UsageRecord where
  id : Nat
  idempotency_key : String
  crm_contact_id : String
  units : Rat
  occurred_at : Int
  invoice_id : Option Nat
deriving Repr, DecidableEq

/-- A row of the `invoices` table (sql/001_schema.sql).  `status` defaults
to "initiated"; `dwolla_transfer_href` is nullable. -/
structure Invoice where
  id : Nat
  crm_contact_id : String
  period_start : Int
  period_end : Int
  amount_cents : Int
  dwolla_transfer_href : Option String
  status : String
  created_at : Int
  updated_at : Int
deriving Repr, DecidableEq

/-- The persistent store: the three tables plus the next value of each
serial primary-key sequence. -/
structure DB where
  customers : List Customer
  usage_ledger : List UsageRecord
  invoices : List Invoice
  next_usage_id : Nat
  next_invoice_id : Nat
deriving Repr, DecidableEq

/-- JavaScript truthiness of an optional string: `undefined`/`null` and the
empty string are falsy, every other string is truthy. -/
def jsTruthy : Option String → Bool
  | none => false
  | some s => s ≠ ""

/-- JavaScript `Math.round`: halves round toward positive infinity. -/
def jsRound (q : Rat) : Int := ⌊q + 1/2⌋

/-! ## Usage Recorder (src/webhooks/ghl-usage.js) -/

/-- The inbound usage webhook body after JavaScript coercions.
`crm_contact_id`, `name`, `email`, `idempotency_key` are the string fields
(absent or non-string values are modelled as `none`); `units` is
`Number(body.units)` when that is defined and not NaN, else `none`;
`occurred_at` is the parsed instant when the field is a valid ISO 8601
timestamp, else `none`. -/
structure UsageBody where
  crm_contact_id : Option String
  name : Option String
  email : Option String
  units : Option Rat
  occurred_at : Option Int
  idempotency_key : Option String
deriving Repr, DecidableEq

/-- A required string field is rejected when it is missing or empty
(the JavaScript check is falsiness followed by a typeof test). -/
def isBlank : Option String → Bool
  | none => true
  | some s => s = ""

/-- Translation of `validateUsageWebhook` (src/webhooks/ghl-usage.js,
lines 11 to 28): collects one error message per malformed field, in source
order. -/
def validateUsageWebhook (body : UsageBody) : List String :=
  (if isBlank body.crm_contact_id then
    ["crm_contact_id is required and must be a string"] else []) ++
  (if isBlank body.idempotency_key then
    ["idempotency_key is required and must be a string"] else []) ++
  (if (match body.units with | none => true | some u => u ≤ 0) then
    ["units is required and must be a positive number"] else []) ++
  (if body.occurred_at.isNone then
    ["occurred_at is required and must be a valid ISO 8601 timestamp"] else [])

/-- Response of the usage webhook handler: 401, 400 with the validation
details, or 200 with the recorded flag and message.  The 500 internal
error path exists in the source only for datastore failures, which the
pure store model cannot raise. -/
inductive GhlResponse where
  | unauthorized : GhlResponse
  | badRequest : List String → GhlResponse
  | ok : Bool → String → GhlResponse
deriving Repr, DecidableEq

/-- Translation of the customers upsert
(`INSERT ... ON CONFLICT (crm_contact_id) DO UPDATE SET name = EXCLUDED.name,
email = EXCLUDED.email`, src/webhooks/ghl-usage.js lines 57 to 63):
an existing row keeps every column except `name` and `email`; a fresh row
gets the schema defaults (null hrefs, status "pending"). -/
def upsertCustomer (cs : List Customer) (cid : String)
    (name email : Option String) : List Customer :=
  if cs.any (fun c => c.crm_contact_id = cid) then
    cs.map (fun c =>
      if c.crm_contact_id = cid then { c with name := name, email := email } else c)
  else
    cs ++ [{ crm_contact_id := cid, name := name, email := email,
             dwolla_customer_href := none, dwolla_funding_href := none,
             status := "pending" }]

/-- Translation of `createGhlUsageHandler` (src/webhooks/ghl-usage.js,
lines 33 to 103): bearer auth, validation, then one transaction holding
the customer upsert and the `ON CONFLICT (idempotency_key) DO NOTHING`
usage insert.  `envBearer` is `process.env.GHL_BEARER`; `auth` is the
authorization header. -/
def ghlUsage (envBearer : String) (auth : Option String)
    (body : UsageBody) (db : DB) : GhlResponse × DB :=
  if auth ≠ some ("Bearer " ++ envBearer) then
    (GhlResponse.unauthorized, db)
  else
    let errs := validateUsageWebhook body
    if errs ≠ [] then
      (GhlResponse.badRequest errs, db)
    else
      let cid := body.crm_contact_id.getD ""
      let key := body.idempotency_key.getD ""
      let customers := upsertCustomer db.customers cid body.name body.email
      if db.usage_ledger.any (fun r => r.idempotency_key = key) then
        (GhlResponse.ok false "Duplicate request ignored",
         { db with customers := customers })
      else
        (GhlResponse.ok true "Usage recorded",
         { db with
             customers := customers,
             usage_ledger := db.usage_ledger ++
               [{ id := db.next_usage_id, idempotency_key := key,
                  crm_contact_id := cid, units := body.units.getD 0,
                  occurred_at := body.occurred_at.getD 0, invoice_id := none }],
             next_usage_id := db.next_usage_id + 1 })

/-! ## Billing Aggregator (src/server.js, POST /bill/week) -/

/-- Price configuration: `PRICE_PER_UNIT_CENTS = 400` (src/server.js). -/
def PRICE_PER_UNIT_CENTS : Rat := 400

/-- The row predicate of both the `usage_totals` CTE and the claim UPDATE
(src/server.js lines 628 to 633 and 690 to 697): same customer, inside the
half-open window, and not yet linked to an invoice. -/
def inWindowUnbilled (start stop : Int) (cid : String) (r : UsageRecord) : Bool :=
  r.crm_contact_id = cid && decide (start ≤ r.occurred_at) &&
    decide (r.occurred_at < stop) && r.invoice_id = none

/-- `SUM(units)` of the `usage_totals` CTE for one customer: the sum of
`units` over the still-unbilled records of the window. -/
def totalUnits (db : DB) (cid : String) (start stop : Int) : Rat :=
  ((db.usage_ledger.filter (inWindowUnbilled start stop cid)).map
    (fun r => r.units)).sum

/-- One row of the billing query result (src/server.js lines 627 to 641):
an active customer with a funding source and positive unbilled usage in the
window, carrying the summed units. -/
structure BillingRow where
  crm_contact_id : String
  name : Option String
  email : Option String
  dwolla_funding_href : Option String
  units : Rat
deriving Repr, DecidableEq

/-- Translation of the billing query: filter `customers` on
`status = 'active' AND dwolla_funding_href IS NOT NULL AND
COALESCE(u.units, 0) > 0`, joining each row with its summed unbilled
units for the window. -/
def billingQuery (db : DB) (start stop : Int) : List BillingRow :=
  (db.customers.filter (fun c =>
      c.status = "active" && c.dwolla_funding_href.isSome &&
        decide (0 < totalUnits db c.crm_contact_id start stop))).map
    (fun c =>
      { crm_contact_id := c.crm_contact_id, name := c.name, email := c.email,
        dwolla_funding_href := c.dwolla_funding_href,
        units := totalUnits db c.crm_contact_id start stop })

/-- The per-row effect of the claim UPDATE (src/server.js lines 690 to
697): a row of the same customer, inside the window and still unbilled, is
linked to the new invoice id; every other row is left alone. -/
def claimMap (start stop : Int) (cid : String) (invoiceId : Nat)
    (r : UsageRecord) : UsageRecord :=
  if inWindowUnbilled start stop cid r then { r with invoice_id := some invoiceId }
  else r

/-- The `results` summary object the billing endpoint accumulates and
returns (src/server.js lines 645 to 653).  `total_amount_dollars` is a
JavaScript float in the source, modelled as an exact rational. -/
structure BillResults where
  total : Nat
  successful : Nat
  failed : Nat
  skipped : Nat
  total_amount_cents : Int
  total_amount_dollars : Rat
  errors : List (String × String)
deriving Repr, DecidableEq

/-- State threaded through the per-customer billing loop. -/
structure BillState where
  db : DB
  results : BillResults
deriving Repr, DecidableEq

/-- One iteration of the per-customer billing loop (src/server.js lines
655 to 727).  The `dwollaPost('transfers', ...)` network call is abstracted
by the oracle `transfer`, mapping the customer to either the error message
of the thrown exception or the `location` header of the response (itself
nullable).  On transfer failure the transaction is rolled back: the store
is untouched and the customer is recorded under `failed`.  On success one
invoice row is inserted (status defaults to "initiated",
`created_at`/`updated_at` default to now) and every still-unbilled usage
row of the customer and window is linked to it. -/
def billStep (transfer : String → Except String (Option String))
    (start stop now : Int) (st : BillState) (row : BillingRow) : BillState :=
  let amountCents := jsRound (row.units * PRICE_PER_UNIT_CENTS)
  if amountCents ≤ 0 then
    { st with results := { st.results with skipped := st.results.skipped + 1 } }
  else
    match transfer row.crm_contact_id with
    | Except.error msg =>
        { st with results :=
            { st.results with
                failed := st.results.failed + 1,
                errors := st.results.errors ++ [(row.crm_contact_id, msg)] } }
    | Except.ok loc =>
        let invoiceId := st.db.next_invoice_id
        let inv : Invoice :=
          { id := invoiceId, crm_contact_id := row.crm_contact_id,
            period_start := start, period_end := stop,
            amount_cents := amountCents, dwolla_transfer_href := loc,
            status := "initiated", created_at := now, updated_at := now }
        let ledger := st.db.usage_ledger.map
          (claimMap start stop row.crm_contact_id invoiceId)
        { db := { st.db with
                    invoices := st.db.invoices ++ [inv],
                    usage_ledger := ledger,
                    next_invoice_id := invoiceId + 1 },
          results := { st.results with
                         successful := st.results.successful + 1,
                         total_amount_cents :=
                           st.results.total_amount_cents + amountCents,
                         total_amount_dollars :=
                           st.results.total_amount_dollars + amountCents / 100 } }

/-- The initial loop state of a billing run: the store as read, counters
at zero, and `total` equal to the number of query rows. -/
def billWeekInit (db : DB) (rows : List BillingRow) : BillState :=
  { db := db,
    results := { total := rows.length, successful := 0, failed := 0,
                 skipped := 0, total_amount_cents := 0,
                 total_amount_dollars := 0, errors := [] } }

/-- The weekly billing run (src/server.js lines 613 to 753) for an
arbitrary window `[start, stop)`: evaluate the billing query once, then
fold the per-customer loop over its rows. -/
def billWeek (db : DB) (start stop now : Int)
    (transfer : String → Except String (Option String)) : BillState :=
  (billingQuery db start stop).foldl (billStep transfer start stop now)
    (billWeekInit db (billingQuery db start stop))

/-! ## Transfer Status Reconciler (src/webhooks/dwolla-webhook.js) -/

/-- The parsed Dwolla event: `evt?._links?.resource?.href` and
`evt?.topic`, each possibly absent. -/
structure DwollaEvent where
  href : Option String
  topic : Option String
deriving Repr, DecidableEq

/-- Node `crypto.timingSafeEqual` on the two digest strings: throws a
RangeError when the byte lengths differ (modelled as `Except.error`),
otherwise compares for equality. -/
def timingSafeEqual (a b : String) : Except Unit Bool :=
  if a.length = b.length then Except.ok (a = b) else Except.error ()

/-- Translation of `verifyDwollaWebhookSignature`
(src/webhooks/dwolla-webhook.js lines 11 to 30).  `hmacHex` abstracts the
Node crypto library call `createHmac('sha256', secret).update(raw).digest('hex')`
as a function of the secret and the raw payload.  When the secret env var
is unset (or empty), verification is skipped and the request is accepted;
when the signature header is missing, the request is rejected; otherwise
the header is compared against the keyed digest with `timingSafeEqual`,
whose length-mismatch exception propagates. -/
def verifyDwollaWebhookSignature (hmacHex : String → String → String)
    (secret : Option String) (sigHeader : Option String)
    (rawBody : String) : Except Unit Bool :=
  if ¬ jsTruthy secret then Except.ok true
  else
    match sigHeader with
    | none => Except.ok false
    | some sig => timingSafeEqual sig (hmacHex (secret.getD "") rawBody)

/-- The per-row effect of the invoice UPDATE for a recognised topic: a row
whose `dwolla_transfer_href` equals the event href and whose status differs
from the target is set to the target status with `updated_at` touched;
every other row is left alone (src/webhooks/dwolla-webhook.js lines 57
to 89, WHERE clause `dwolla_transfer_href = $1 AND status != target`). -/
def transferTopicUpdate (target href : String) (now : Int) (i : Invoice) : Invoice :=
  if i.dwolla_transfer_href = some href && i.status ≠ target then
    { i with status := target, updated_at := now }
  else i

/-- The invoice UPDATE run for a recognised topic, applied across the
table. -/
def applyTransferTopic (target : String) (href : String) (now : Int)
    (invoices : List Invoice) : List Invoice :=
  invoices.map (transferTopicUpdate target href now)

/-- The topic dispatch of the webhook body, after verification and payload
checks have passed (src/webhooks/dwolla-webhook.js lines 57 to 89): the
`transfer_completed` and `transfer_failed` topics run the corresponding
invoice UPDATE; any other topic only logs. -/
def processTransferEvent (evt : DwollaEvent) (now : Int) (db : DB) : DB :=
  if evt.topic = some "transfer_completed" then
    { db with invoices :=
        applyTransferTopic "completed" (evt.href.getD "") now db.invoices }
  else if evt.topic = some "transfer_failed" then
    { db with invoices :=
        applyTransferTopic "failed" (evt.href.getD "") now db.invoices }
  else db

/-- Translation of `createDwollaWebhookHandler`
(src/webhooks/dwolla-webhook.js lines 35 to 101).  `parse` abstracts
`JSON.parse` over the raw bytes (`none` models a parse exception); any
exception, including the `timingSafeEqual` length mismatch, lands in the
outer catch which acknowledges with 200 and leaves the store untouched.
A failed verification answers 401; a payload without a truthy href or
topic, and an unrecognised topic, are acknowledged with 200 and no write. -/
def dwollaWebhook (hmacHex : String → String → String)
    (parse : String → Option DwollaEvent)
    (secret : Option String) (sigHeader : Option String) (rawBody : String)
    (now : Int) (db : DB) : Nat × DB :=
  match verifyDwollaWebhookSignature hmacHex secret sigHeader rawBody with
  | Except.error _ => (200, db)
  | Except.ok false => (401, db)
  | Except.ok true =>
    match parse rawBody with
    | none => (200, db)
    | some evt =>
      if ¬ jsTruthy evt.href ∨ ¬ jsTruthy evt.topic then (200, db)
      else (200, processTransferEvent evt now db)

/-! ## Transfer Initiator (src/server.js, dwollaPost, lines 565 to 607) -/

/-- The environment outcome of one HTTP attempt against the processor:
a 2xx response carrying the (nullable) `location` header, a non-ok HTTP
status with its body text, or a thrown fetch/network error. -/
inductive AttemptOutcome where
  | ok : Option String → AttemptOutcome
  | httpErr : Nat → String → AttemptOutcome
  | netErr : String → AttemptOutcome
deriving Repr, DecidableEq

/-- The error message built for a non-ok response
(`Dwolla API error: status - text`). -/
def dwollaErrMsg (status : Nat) (text : String) : String :=
  "Dwolla API error: " ++ toString status ++ " - " ++ text

/-- The backoff delay before retrying attempt `attempt`
(`Math.min(1000 * Math.pow(2, attempt - 1), 5000)`), in milliseconds. -/
def backoffDelay (attempt : Nat) : Nat := min (1000 * 2 ^ (attempt - 1)) 5000

/-- Observable trace of one `dwollaPost` call: the returned location or the
finally-thrown error message, the number of attempts consumed, the sleeps
performed between attempts, and how many times the token cache was
cleared. -/
structure DwollaCallTrace where
  result : Except String (Option String)
  attemptsUsed : Nat
  delays : List Nat
  cacheCleared : Nat
deriving Repr

/-- The body of the `dwollaPost` retry loop (src/server.js lines 565 to
607), one constructor-recursive step per remaining loop iteration.
`outcome n` is the environment result of the n-th fetch.  A 401 with
attempts remaining clears the token cache, sleeps 1000 ms and retries;
any thrown error (non-ok status rethrown from the try body, or a network
error) reaches the inner catch, which rethrows on the last attempt and is
otherwise silently swallowed so the loop retries immediately; a 5xx with
attempts remaining sleeps the capped exponential backoff first.  The
fuel-exhausted branch models the loop running off its end (the JavaScript
function would return undefined), which is unreachable for positive
retries. -/
def dwollaPostFrom (outcome : Nat → AttemptOutcome) (retries : Nat) :
    Nat → Nat → List Nat → Nat → DwollaCallTrace
  | 0, attempt, delays, cleared =>
      ⟨Except.error "loop exhausted", attempt - 1, delays, cleared⟩
  | fuel + 1, attempt, delays, cleared =>
    match outcome attempt with
    | AttemptOutcome.ok loc => ⟨Except.ok loc, attempt, delays, cleared⟩
    | AttemptOutcome.httpErr status text =>
      if status = 401 ∧ attempt < retries then
        dwollaPostFrom outcome retries fuel (attempt + 1)
          (delays ++ [1000]) (cleared + 1)
      else if 400 ≤ status ∧ status < 500 then
        if attempt = retries then
          ⟨Except.error (dwollaErrMsg status text), attempt, delays, cleared⟩
        else
          dwollaPostFrom outcome retries fuel (attempt + 1) delays cleared
      else if attempt < retries then
        dwollaPostFrom outcome retries fuel (attempt + 1)
          (delays ++ [backoffDelay attempt]) cleared
      else
        ⟨Except.error (dwollaErrMsg status text), attempt, delays, cleared⟩
    | AttemptOutcome.netErr msg =>
      if attempt = retries then
        ⟨Except.error msg, attempt, delays, cleared⟩
      else
        dwollaPostFrom outcome retries fuel (attempt + 1) delays cleared

/-- `dwollaPost(path, body, retries = 3)`: run the loop from attempt 1
with `retries` iterations of fuel. -/
def dwollaPost (outcome : Nat → AttemptOutcome) (retries : Nat := 3) :
    DwollaCallTrace :=
  dwollaPostFrom outcome retries retries 1 [] 0

/-! ## Auxiliary predicates and concrete sample inputs -/

/-- A ledger transformation only ever claims unbilled rows: each row is
either left alone, or was unbilled (`invoice_id` null) and is linked to
some invoice.  In particular a row whose `invoice_id` is already set is
never modified. -/
def ClaimOnly (g : UsageRecord → UsageRecord) : Prop :=
  ∀ r, g r = r ∨ (r.invoice_id = none ∧ ∃ k, g r = { r with invoice_id := some k })

/-- Sample active customer with a funding source. -/
def sampleCustomer : Customer :=
  { crm_contact_id := "C1", name := some "Zed", email := some "zed@example.com",
    dwolla_customer_href := none, dwolla_funding_href := some "F1",
    status := "active" }

/-- Sample usage row already claimed by invoice 1. -/
def sampleUsageBilled : UsageRecord :=
  { id := 1, idempotency_key := "K1", crm_contact_id := "C1", units := 3,
    occurred_at := 5, invoice_id := some 1 }

/-- Sample usage row not yet billed. -/
def sampleUsageOpen : UsageRecord :=
  { id := 2, idempotency_key := "K2", crm_contact_id := "C1", units := 2,
    occurred_at := 6, invoice_id := none }

/-- Sample invoice with transfer href "H1" and a chosen status. -/
def sampleInvoice (status : String) : Invoice :=
  { id := 1, crm_contact_id := "C1", period_start := 0, period_end := 10,
    amount_cents := 1200, dwolla_transfer_href := some "H1", status := status,
    created_at := 0, updated_at := 0 }

/-- Sample store: one active customer, one billed and one open usage row,
one initiated invoice. -/
def sampleDB : DB :=
  { customers := [sampleCustomer],
    usage_ledger := [sampleUsageBilled, sampleUsageOpen],
    invoices := [sampleInvoice "initiated"],
    next_usage_id := 3, next_invoice_id := 2 }

/-- Store holding a single invoice already in the terminal state
"failed". -/
def failedInvoiceDB : DB :=
  { customers := [], usage_ledger := [], invoices := [sampleInvoice "failed"],
    next_usage_id := 1, next_invoice_id := 2 }

/-- Store holding a single invoice in state "initiated". -/
def initiatedInvoiceDB : DB :=
  { customers := [], usage_ledger := [], invoices := [sampleInvoice "initiated"],
    next_usage_id := 1, next_invoice_id := 2 }

/-- A JSON parse oracle returning a fixed event for every raw payload. -/
def parseEventConst (href topic : Option String) : String → Option DwollaEvent :=
  fun _ => some { href := href, topic := topic }

/-- An HMAC oracle returning a fixed digest for every input. -/
def hmacConst (digest : String) : String → String → String :=
  fun _ _ => digest

/-- Sample valid usage body whose idempotency key duplicates the one of
`sampleUsageBilled`. -/
def sampleDupBody : UsageBody :=
  { crm_contact_id := some "C1", name := some "NewName",
    email := some "new@example.com", units := some 9, occurred_at := some 7,
    idempotency_key := some "K1" }

/-- Sample usage body carrying `units = -1`. -/
def sampleNegBody : UsageBody :=
  { crm_contact_id := some "C1", name := some "Zed",
    email := some "zed@example.com", units := some (-1), occurred_at := some 7,
    idempotency_key := some "K9" }

/-- Sample billing-query row for customer "C1" with 3 summed units. -/
def sampleRow : BillingRow :=
  { crm_contact_id := "C1", name := some "Zed", email := some "zed@example.com",
    dwolla_funding_href := some "F1", units := 3 }

/-- The row the billing query actually returns for `sampleDB` over the
window `[0, 10)`: the only unbilled in-window usage is `sampleUsageOpen`
with 2 units. -/
def sampleQueryRow : BillingRow :=
  { crm_contact_id := "C1", name := some "Zed", email := some "zed@example.com",
    dwolla_funding_href := some "F1", units := 2 }

/-- A billing row whose fractional units round to a zero amount, exercising
the skip branch. -/
def sampleTinyRow : BillingRow :=
  { crm_contact_id := "C1", name := some "Zed", email := some "zed@example.com",
    dwolla_funding_href := some "F1", units := 1/1000 }

/-- Sample initial loop state over `sampleDB` with one row counted. -/
def sampleBillState : BillState :=
  { db := sampleDB,
    results := { total := 1, successful := 0, failed := 0, skipped := 0,
                 total_amount_cents := 0, total_amount_dollars := 0,
                 errors := [] } }

/-! ## Helper lemmas -/

theorem inWindowUnbilled_eq_true_iff {start stop : Int} {cid : String}
    {r : UsageRecord} :
    inWindowUnbilled start stop cid r = true ↔
      (r.crm_contact_id = cid ∧ start ≤ r.occurred_at ∧ r.occurred_at < stop ∧
        r.invoice_id = none) := by
  simp [inWindowUnbilled, and_assoc]

theorem claimOnly_id : ClaimOnly id := fun _ => Or.inl rfl

theorem claimOnly_claimMap (start stop : Int) (cid : String) (k : Nat) :
    ClaimOnly (claimMap start stop cid k) := by
  intro r
  by_cases h : inWindowUnbilled start stop cid r = true
  · exact Or.inr ⟨(inWindowUnbilled_eq_true_iff.mp h).2.2.2, k, by simp [claimMap, h]⟩
  · exact Or.inl (by simp [claimMap, h])

theorem claimOnly_comp {f g : UsageRecord → UsageRecord}
    (hf : ClaimOnly f) (hg : ClaimOnly g) : ClaimOnly (fun r => g (f r)) := by
  intro r
  show g (f r) = r ∨
    r.invoice_id = none ∧ ∃ k, g (f r) = { r with invoice_id := some k }
  rcases hf r with h1 | ⟨hnone, k, hk⟩
  · rw [h1]; exact hg r
  · rcases hg (f r) with h2 | ⟨hnone2, _, _⟩
    · rw [h2, hk]; exact Or.inr ⟨hnone, k, rfl⟩
    · rw [hk] at hnone2; simp at hnone2

theorem billStep_skip {transfer : String → Except String (Option String)}
    {start stop now : Int} {st : BillState} {row : BillingRow}
    (h : jsRound (row.units * PRICE_PER_UNIT_CENTS) ≤ 0) :
    billStep transfer start stop now st row
      = { st with results := { st.results with skipped := st.results.skipped + 1 } } := by
  simp [billStep, h]

theorem billStep_fail {transfer : String → Except String (Option String)}
    {start stop now : Int} {st : BillState} {row : BillingRow} {msg : String}
    (hpos : 0 < jsRound (row.units * PRICE_PER_UNIT_CENTS))
    (h : transfer row.crm_contact_id = Except.error msg) :
    billStep transfer start stop now st row
      = { st with results := { st.results with
            failed := st.results.failed + 1,
            errors := st.results.errors ++ [(row.crm_contact_id, msg)] } } := by
  simp [billStep, h, hpos.not_le]

theorem billStep_ok {transfer : String → Except String (Option String)}
    {start stop now : Int} {st : BillState} {row : BillingRow}
    {loc : Option String}
    (hpos : 0 < jsRound (row.units * PRICE_PER_UNIT_CENTS))
    (h : transfer row.crm_contact_id = Except.ok loc) :
    billStep transfer start stop now st row
      = { db := { st.db with
                    invoices := st.db.invoices ++
                      [{ id := st.db.next_invoice_id,
                         crm_contact_id := row.crm_contact_id,
                         period_start := start, period_end := stop,
                         amount_cents := jsRound (row.units * PRICE_PER_UNIT_CENTS),
                         dwolla_transfer_href := loc, status := "initiated",
                         created_at := now, updated_at := now }],
                    usage_ledger := st.db.usage_ledger.map
                      (claimMap start stop row.crm_contact_id st.db.next_invoice_id),
                    next_invoice_id := st.db.next_invoice_id + 1 },
          results := { st.results with
                         successful := st.results.successful + 1,
                         total_amount_cents := st.results.total_amount_cents
                           + jsRound (row.units * PRICE_PER_UNIT_CENTS),
                         total_amount_dollars := st.results.total_amount_dollars
                           + (jsRound (row.units * PRICE_PER_UNIT_CENTS) : Rat) / 100 } } := by
  simp [billStep, h, hpos.not_le]

theorem billFold_ledger (transfer : String → Except String (Option String))
    (start stop now : Int) (rows : List BillingRow) :
    ∀ st : BillState, ∃ g, ClaimOnly g ∧
      (rows.foldl (billStep transfer start stop now) st).db.usage_ledger
        = st.db.usage_ledger.map g := by
  induction rows with
  | nil => exact fun st => ⟨id, claimOnly_id, by simp⟩
  | cons row rows ih =>
    intro st
    obtain ⟨g, hg, hmap⟩ := ih (billStep transfer start stop now st row)
    by_cases hskip : jsRound (row.units * PRICE_PER_UNIT_CENTS) ≤ 0
    · exact ⟨g, hg, by rw [List.foldl_cons, hmap, billStep_skip hskip]⟩
    · rw [not_le] at hskip
      cases htr : transfer row.crm_contact_id with
      | error msg =>
        exact ⟨g, hg, by rw [List.foldl_cons, hmap, billStep_fail hskip htr]⟩
      | ok loc =>
        refine ⟨fun r => g (claimMap start stop row.crm_contact_id
            st.db.next_invoice_id r),
          claimOnly_comp (claimOnly_claimMap _ _ _ _) hg, ?_⟩
        rw [List.foldl_cons, hmap, billStep_ok hskip htr]
        simp only [List.map_map]
        rfl

theorem billStep_counts (transfer : String → Except String (Option String))
    (start stop now : Int) (st : BillState) (row : BillingRow) :
    ((billStep transfer start stop now st row).results.successful
      + (billStep transfer start stop now st row).results.failed
      + (billStep transfer start stop now st row).results.skipped
      = st.results.successful + st.results.failed + st.results.skipped + 1) ∧
    (billStep transfer start stop now st row).results.total = st.results.total := by
  by_cases hskip : jsRound (row.units * PRICE_PER_UNIT_CENTS) ≤ 0
  · rw [billStep_skip hskip]
    exact ⟨by show st.results.successful + st.results.failed
        + (st.results.skipped + 1) = _; omega, rfl⟩
  · rw [not_le] at hskip
    cases htr : transfer row.crm_contact_id with
    | error msg =>
      rw [billStep_fail hskip htr]
      exact ⟨by show st.results.successful + (st.results.failed + 1)
          + st.results.skipped = _; omega, rfl⟩
    | ok loc =>
      rw [billStep_ok hskip htr]
      exact ⟨by show st.results.successful + 1 + st.results.failed
          + st.results.skipped = _; omega, rfl⟩

theorem billFold_counts (transfer : String → Except String (Option String))
    (start stop now : Int) (rows : List BillingRow) :
    ∀ st : BillState,
      ((rows.foldl (billStep transfer start stop now) st).results.successful
        + (rows.foldl (billStep transfer start stop now) st).results.failed
        + (rows.foldl (billStep transfer start stop now) st).results.skipped
        = st.results.successful + st.results.failed + st.results.skipped
          + rows.length) ∧
      (rows.foldl (billStep transfer start stop now) st).results.total
        = st.results.total := by
  induction rows with
  | nil => exact fun st => ⟨by simp, rfl⟩
  | cons row rows ih =>
    intro st
    obtain ⟨h1a, h1b⟩ := billStep_counts transfer start stop now st row
    obtain ⟨h2a, h2b⟩ := ih (billStep transfer start stop now st row)
    rw [List.foldl_cons]
    refine ⟨?_, by rw [h2b, h1b]⟩
    rw [h2a, h1a]
    simp only [List.length_cons]
    omega

theorem billStep_invlen (transfer : String → Except String (Option String))
    (start stop now : Int) (st : BillState) (row : BillingRow) :
    (billStep transfer start stop now st row).db.invoices.length
        + st.results.successful
      = st.db.invoices.length
        + (billStep transfer start stop now st row).results.successful := by
  by_cases hskip : jsRound (row.units * PRICE_PER_UNIT_CENTS) ≤ 0
  · rw [billStep_skip hskip]
  · rw [not_le] at hskip
    cases htr : transfer row.crm_contact_id with
    | error msg => rw [billStep_fail hskip htr]
    | ok loc => rw [billStep_ok hskip htr]; simp; omega

theorem billFold_invlen (transfer : String → Except String (Option String))
    (start stop now : Int) (rows : List BillingRow) :
    ∀ st : BillState,
      (rows.foldl (billStep transfer start stop now) st).db.invoices.length
          + st.results.successful
        = st.db.invoices.length
          + (rows.foldl (billStep transfer start stop now) st).results.successful := by
  induction rows with
  | nil => exact fun st => rfl
  | cons row rows ih =>
    intro st
    have h1 := billStep_invlen transfer start stop now st row
    have h2 := ih (billStep transfer start stop now st row)
    rw [List.foldl_cons]
    omega

theorem billFold_db_allfail (transfer : String → Except String (Option String))
    (start stop now : Int) (rows : List BillingRow)
    (hall : ∀ cid, ∃ m, transfer cid = Except.error m) :
    ∀ st : BillState,
      (rows.foldl (billStep transfer start stop now) st).db = st.db := by
  induction rows with
  | nil => exact fun st => rfl
  | cons row rows ih =>
    intro st
    rw [List.foldl_cons, ih]
    by_cases hskip : jsRound (row.units * PRICE_PER_UNIT_CENTS) ≤ 0
    · rw [billStep_skip hskip]
    · rw [not_le] at hskip
      obtain ⟨m, hm⟩ := hall row.crm_contact_id
      rw [billStep_fail hskip hm]

theorem billStep_next_le (transfer : String → Except String (Option String))
    (start stop now : Int) (st : BillState) (row : BillingRow) :
    st.db.next_invoice_id
      ≤ (billStep transfer start stop now st row).db.next_invoice_id := by
  by_cases hskip : jsRound (row.units * PRICE_PER_UNIT_CENTS) ≤ 0
  · rw [billStep_skip hskip]
  · rw [not_le] at hskip
    cases htr : transfer row.crm_contact_id with
    | error msg => rw [billStep_fail hskip htr]
    | ok loc => rw [billStep_ok hskip htr]; exact Nat.le_succ _

theorem billStep_inv_mem (transfer : String → Except String (Option String))
    (start stop now : Int) (st : BillState) (row : BillingRow) :
    ∀ inv ∈ (billStep transfer start stop now st row).db.invoices,
      inv ∈ st.db.invoices ∨ inv.id = st.db.next_invoice_id := by
  by_cases hskip : jsRound (row.units * PRICE_PER_UNIT_CENTS) ≤ 0
  · rw [billStep_skip hskip]; exact fun inv h => Or.inl h
  · rw [not_le] at hskip
    cases htr : transfer row.crm_contact_id with
    | error msg => rw [billStep_fail hskip htr]; exact fun inv h => Or.inl h
    | ok loc =>
      rw [billStep_ok hskip htr]
      intro inv h
      rcases List.mem_append.mp h with h1 | h1
      · exact Or.inl h1
      · rw [List.mem_singleton.mp h1]; exact Or.inr rfl

theorem billFold_inv_mem (transfer : String → Except String (Option String))
    (start stop now : Int) (rows : List BillingRow) :
    ∀ st : BillState,
      ∀ inv ∈ (rows.foldl (billStep transfer start stop now) st).db.invoices,
        inv ∈ st.db.invoices ∨ st.db.next_invoice_id ≤ inv.id := by
  induction rows with
  | nil => exact fun st inv h => Or.inl h
  | cons row rows ih =>
    intro st inv h
    rw [List.foldl_cons] at h
    rcases ih (billStep transfer start stop now st row) inv h with h1 | h1
    · rcases billStep_inv_mem transfer start stop now st row inv h1 with h2 | h2
      · exact Or.inl h2
      · exact Or.inr (le_of_eq h2.symm)
    · exact Or.inr (le_trans (billStep_next_le transfer start stop now st row) h1)

theorem transferTopicUpdate_idem (target href : String) (now1 now2 : Int)
    (i : Invoice) :
    transferTopicUpdate target href now2 (transferTopicUpdate target href now1 i)
      = transferTopicUpdate target href now1 i := by
  unfold transferTopicUpdate
  by_cases h1 : i.dwolla_transfer_href = some href
  · by_cases h2 : i.status = target
    · simp [h1, h2]
    · simp [h1, h2]
  · simp [h1]

theorem applyTransferTopic_idem (target href : String) (now1 now2 : Int)
    (l : List Invoice) :
    applyTransferTopic target href now2 (applyTransferTopic target href now1 l)
      = applyTransferTopic target href now1 l := by
  induction l with
  | nil => rfl
  | cons i l ih =>
    simp only [applyTransferTopic, List.map_cons] at ih ⊢
    rw [transferTopicUpdate_idem]
    exact congrArg _ ih

theorem applyTransferTopic_no_match (target href : String) (now : Int)
    (l : List Invoice) (h : ∀ i ∈ l, i.dwolla_transfer_href ≠ some href) :
    applyTransferTopic target href now l = l := by
  induction l with
  | nil => rfl
  | cons i l ih =>
    simp only [applyTransferTopic, List.map_cons]
    have h1 : i.dwolla_transfer_href ≠ some href := h i (List.mem_cons_self i l)
    rw [show transferTopicUpdate target href now i = i by
      simp [transferTopicUpdate, h1]]
    have := ih (fun j hj => h j (List.mem_cons_of_mem i hj))
    simp only [applyTransferTopic] at this
    rw [this]

theorem processTransferEvent_ledger (evt : DwollaEvent) (now : Int) (db : DB) :
    (processTransferEvent evt now db).usage_ledger = db.usage_ledger := by
  unfold processTransferEvent
  split_ifs <;> rfl

theorem processTransferEvent_customers (evt : DwollaEvent) (now : Int)
    (db : DB) :
    (processTransferEvent evt now db).customers = db.customers := by
  unfold processTransferEvent
  split_ifs <;> rfl

theorem processTransferEvent_idem (evt : DwollaEvent) (now1 now2 : Int)
    (db : DB) :
    processTransferEvent evt now2 (processTransferEvent evt now1 db)
      = processTransferEvent evt now1 db := by
  unfold processTransferEvent
  by_cases h1 : evt.topic = some "transfer_completed"
  · simp [h1, applyTransferTopic_idem]
  · by_cases h2 : evt.topic = some "transfer_failed"
    · simp [h1, h2, applyTransferTopic_idem]
    · simp [h1, h2]

theorem dwollaWebhook_status_db_independent
    (hm : String → String → String) (p : String → Option DwollaEvent)
    (secret sig : Option String) (raw : String) (now1 now2 : Int)
    (db1 db2 : DB) :
    (dwollaWebhook hm p secret sig raw now1 db1).1
      = (dwollaWebhook hm p secret sig raw now2 db2).1 := by
  unfold dwollaWebhook
  cases verifyDwollaWebhookSignature hm secret sig raw with
  | error e => rfl
  | ok b =>
    cases b with
    | false => rfl
    | true =>
      cases p raw with
      | none => rfl
      | some evt =>
        dsimp only
        split_ifs <;> rfl

theorem dwollaWebhook_ledger (hm : String → String → String)
    (p : String → Option DwollaEvent) (secret sig : Option String)
    (raw : String) (now : Int) (db : DB) :
    (dwollaWebhook hm p secret sig raw now db).2.usage_ledger
      = db.usage_ledger := by
  unfold dwollaWebhook
  cases verifyDwollaWebhookSignature hm secret sig raw with
  | error e => rfl
  | ok b =>
    cases b with
    | false => rfl
    | true =>
      cases p raw with
      | none => rfl
      | some evt =>
        dsimp only
        split_ifs
        · rfl
        · exact processTransferEvent_ledger evt now db

theorem dwollaWebhook_customers (hm : String → String → String)
    (p : String → Option DwollaEvent) (secret sig : Option String)
    (raw : String) (now : Int) (db : DB) :
    (dwollaWebhook hm p secret sig raw now db).2.customers
      = db.customers := by
  unfold dwollaWebhook
  cases verifyDwollaWebhookSignature hm secret sig raw with
  | error e => rfl
  | ok b =>
    cases b with
    | false => rfl
    | true =>
      cases p raw with
      | none => rfl
      | some evt =>
        dsimp only
        split_ifs
        · rfl
        · exact processTransferEvent_customers evt now db

theorem dwollaWebhook_idem (hm : String → String → String)
    (p : String → Option DwollaEvent) (secret sig : Option String)
    (raw : String) (now1 now2 : Int) (db : DB) :
    (dwollaWebhook hm p secret sig raw now2
        (dwollaWebhook hm p secret sig raw now1 db).2).2
      = (dwollaWebhook hm p secret sig raw now1 db).2 := by
  unfold dwollaWebhook
  cases verifyDwollaWebhookSignature hm secret sig raw with
  | error e => rfl
  | ok b =>
    cases b with
    | false => rfl
    | true =>
      cases p raw with
      | none => rfl
      | some evt =>
        dsimp only
        split_ifs
        · rfl
        · exact processTransferEvent_idem evt now1 now2 db

theorem ghlUsage_ledger_append (envBearer : String) (auth : Option String)
    (body : UsageBody) (db : DB) :
    ∃ t, (ghlUsage envBearer auth body db).2.usage_ledger
      = db.usage_ledger ++ t := by
  by_cases h1 : auth = some ("Bearer " ++ envBearer)
  case neg => exact ⟨[], by simp [ghlUsage, h1]⟩
  case pos =>
    by_cases h2 : validateUsageWebhook body = []
    case neg => exact ⟨[], by simp [ghlUsage, h1, h2]⟩
    case pos =>
      by_cases h3 : db.usage_ledger.any
          (fun r => r.idempotency_key = body.idempotency_key.getD "") = true
      · exact ⟨[], by simp [ghlUsage, h1, h2, h3]⟩
      · refine ⟨[UsageRecord.mk db.next_usage_id (body.idempotency_key.getD "")
          (body.crm_contact_id.getD "") (body.units.getD 0)
          (body.occurred_at.getD 0) none], ?_⟩
        simp [ghlUsage, h1, h2, h3]

/-! ## Claim theorems -/

/-- C3: for two Usage Recorder submissions with the same idempotency key,
exactly one UsageRecord is persisted, holding the fields of the first
successful submission.  When the key is already present, the handler
leaves the ledger completely untouched (so the stored row keeps the first
submission's fields and the key still occurs exactly once) and reports
success with recorded = false and the duplicate message, not an error. -/
theorem c3_idempotent_ingestion (envBearer k : String) (body : UsageBody)
    (db : DB)
    (hk : body.idempotency_key = some k)
    (hvalid : validateUsageWebhook body = [])
    (hdup : (db.usage_ledger.filter
        (fun r => r.idempotency_key = k)).length = 1) :
    (ghlUsage envBearer (some ("Bearer " ++ envBearer)) body db).2.usage_ledger
        = db.usage_ledger ∧
    ((ghlUsage envBearer (some ("Bearer " ++ envBearer)) body
        db).2.usage_ledger.filter
          (fun r => r.idempotency_key = k)).length = 1 ∧
    (ghlUsage envBearer (some ("Bearer " ++ envBearer)) body db).1
        = GhlResponse.ok false "Duplicate request ignored" := by
  have hne : db.usage_ledger.filter (fun r => r.idempotency_key = k) ≠ [] := by
    intro h
    rw [h] at hdup
    simp at hdup
  obtain ⟨r, hr⟩ := List.exists_mem_of_ne_nil _ hne
  have hrmem := List.mem_filter.mp hr
  have hany : db.usage_ledger.any
      (fun r => r.idempotency_key = body.idempotency_key.getD "") = true := by
    rw [hk]
    simp only [Option.getD_some]
    exact List.any_eq_true.mpr ⟨r, hrmem.1, hrmem.2⟩
  refine ⟨?_, ?_, ?_⟩ <;> simp [ghlUsage, hvalid, hany, hdup]

/-- Witness for C3 at a concrete input: a second submission carrying the
key "K1" (already held by `sampleUsageBilled`) with different units leaves
the ledger of `sampleDB` unchanged and answers the duplicate message. -/
theorem c3_idempotent_ingestion_witness :
    (ghlUsage "b" (some ("Bearer " ++ "b")) sampleDupBody
        sampleDB).2.usage_ledger = sampleDB.usage_ledger ∧
    ((ghlUsage "b" (some ("Bearer " ++ "b")) sampleDupBody
        sampleDB).2.usage_ledger.filter
          (fun r => r.idempotency_key = "K1")).length = 1 ∧
    (ghlUsage "b" (some ("Bearer " ++ "b")) sampleDupBody sampleDB).1
        = GhlResponse.ok false "Duplicate request ignored" :=
  c3_idempotent_ingestion "b" "K1" sampleDupBody sampleDB (by decide)
    (by decide) (by decide)

/-- C9: the Usage Recorder rejects with a validation error and no side
effect whenever a field is missing or malformed.  First conjunct: with a
non-empty validation error list the handler answers 400 with the details
and returns the store untouched.  Second conjunct: the error list is empty
exactly when `crm_contact_id` and `idempotency_key` are non-empty strings,
`units` parses to a positive number and `occurred_at` is a valid instant.
Third conjunct: `units = -1` in particular always fails validation. -/
theorem c9_validation_no_side_effect (envBearer : String) (body : UsageBody)
    (db : DB)
    (hbad : validateUsageWebhook body ≠ []) :
    ghlUsage envBearer (some ("Bearer " ++ envBearer)) body db
        = (GhlResponse.badRequest (validateUsageWebhook body), db) ∧
    (validateUsageWebhook body = [] ↔
      (isBlank body.crm_contact_id = false ∧
        isBlank body.idempotency_key = false ∧
        (∃ u : Rat, body.units = some u ∧ 0 < u) ∧
        body.occurred_at.isSome = true)) ∧
    (body.units = some (-1) → validateUsageWebhook body ≠ []) := by
  have hchar : validateUsageWebhook body = [] ↔
      (isBlank body.crm_contact_id = false ∧
        isBlank body.idempotency_key = false ∧
        (∃ u : Rat, body.units = some u ∧ 0 < u) ∧
        body.occurred_at.isSome = true) := by
    cases hu : body.units with
    | none =>
      simp [validateUsageWebhook, hu]
    | some u =>
      by_cases hle : u ≤ 0
      · simp [validateUsageWebhook, hu, hle]
      · simp [validateUsageWebhook, hu, hle, not_le.mp hle,
          Option.isSome_iff_ne_none]
  refine ⟨by simp [ghlUsage, hbad], hchar, ?_⟩
  intro hneg hnil
  obtain ⟨-, -, ⟨u, hu, hupos⟩, -⟩ := hchar.mp hnil
  rw [hneg] at hu
  rw [← Option.some_inj.mp hu] at hupos
  norm_num at hupos

/-- Witness for C9 at a concrete input: submitting `units = -1` is rejected
with the validation error and writes nothing to `sampleDB`. -/
theorem c9_validation_no_side_effect_witness :
    ghlUsage "b" (some ("Bearer " ++ "b")) sampleNegBody sampleDB
        = (GhlResponse.badRequest
            ["units is required and must be a positive number"], sampleDB) := by
  have h := (c9_validation_no_side_effect "b" sampleNegBody sampleDB
    (by decide)).1
  rw [h]
  decide

/-- C10: an authenticated, validated submission whose idempotency key is a
duplicate still runs the customer upsert inside the transaction.  The
handler answers the duplicate message, yet the customers table becomes the
pointwise update overwriting `name` and `email` of the matching row with
this submission's values, and each customer keeps their `status` and
funding-source reference. -/
theorem c10_upsert_runs_on_duplicate (envBearer cid k : String)
    (body : UsageBody) (db : DB)
    (hvalid : validateUsageWebhook body = [])
    (hcid : body.crm_contact_id = some cid)
    (hk : body.idempotency_key = some k)
    (hdup : db.usage_ledger.any (fun r => r.idempotency_key = k) = true)
    (hex : db.customers.any (fun c => c.crm_contact_id = cid) = true) :
    (ghlUsage envBearer (some ("Bearer " ++ envBearer)) body db).1
        = GhlResponse.ok false "Duplicate request ignored" ∧
    (ghlUsage envBearer (some ("Bearer " ++ envBearer)) body db).2.customers
        = db.customers.map (fun c =>
            if c.crm_contact_id = cid then
              { c with name := body.name, email := body.email }
            else c) ∧
    (∀ c ∈ db.customers,
      ∃ cNew ∈ (ghlUsage envBearer (some ("Bearer " ++ envBearer)) body
          db).2.customers,
        cNew.crm_contact_id = c.crm_contact_id ∧
        cNew.status = c.status ∧
        cNew.dwolla_funding_href = c.dwolla_funding_href ∧
        (c.crm_contact_id = cid →
          cNew.name = body.name ∧ cNew.email = body.email)) := by
  have hany : db.usage_ledger.any
      (fun r => r.idempotency_key = body.idempotency_key.getD "") = true := by
    rw [hk]
    simpa using hdup
  have hcust : (ghlUsage envBearer (some ("Bearer " ++ envBearer)) body
      db).2.customers
      = db.customers.map (fun c =>
          if c.crm_contact_id = cid then
            { c with name := body.name, email := body.email }
          else c) := by
    simp [ghlUsage, hvalid, hany, upsertCustomer, hcid, hex]
  refine ⟨by simp [ghlUsage, hvalid, hany], hcust, ?_⟩
  intro c hc
  refine ⟨if c.crm_contact_id = cid then
      { c with name := body.name, email := body.email } else c, ?_, ?_⟩
  · rw [hcust]
    exact List.mem_map_of_mem _ hc
  · by_cases hcc : c.crm_contact_id = cid <;> simp [hcc]

/-- Witness for C10 at a concrete input: the duplicate-key submission
`sampleDupBody` still overwrites the stored name and email of customer
"C1" in `sampleDB` while being reported as a duplicate. -/
theorem c10_upsert_runs_on_duplicate_witness :
    (ghlUsage "b" (some ("Bearer " ++ "b")) sampleDupBody sampleDB).1
        = GhlResponse.ok false "Duplicate request ignored" ∧
    (ghlUsage "b" (some ("Bearer " ++ "b")) sampleDupBody
        sampleDB).2.customers
      = sampleDB.customers.map (fun c =>
          if c.crm_contact_id = "C1" then
            { c with name := sampleDupBody.name, email := sampleDupBody.email }
          else c) :=
  ⟨(c10_upsert_runs_on_duplicate "b" "C1" "K1" sampleDupBody sampleDB
      (by decide) (by decide) (by decide) (by decide) (by decide)).1,
   (c10_upsert_runs_on_duplicate "b" "C1" "K1" sampleDupBody sampleDB
      (by decide) (by decide) (by decide) (by decide) (by decide)).2.1⟩

/-- C8: every authenticated notification is acknowledged with 200
regardless of the internal outcome, and the no-write cases perform no
state change: a JSON parse failure, a payload without a truthy href or
topic, an unrecognised topic, and a transfer reference matching no
invoice all acknowledge while leaving the store exactly as it was. -/
theorem c8_always_acknowledges (hm : String → String → String)
    (p : String → Option DwollaEvent) (secret sig : Option String)
    (raw : String) (now : Int) (db : DB)
    (hver : verifyDwollaWebhookSignature hm secret sig raw = Except.ok true) :
    (dwollaWebhook hm p secret sig raw now db).1 = 200 ∧
    (p raw = none → (dwollaWebhook hm p secret sig raw now db).2 = db) ∧
    (∀ evt, p raw = some evt →
      jsTruthy evt.href = false ∨ jsTruthy evt.topic = false →
      (dwollaWebhook hm p secret sig raw now db).2 = db) ∧
    (∀ evt, p raw = some evt → evt.topic ≠ some "transfer_completed" →
      evt.topic ≠ some "transfer_failed" →
      (dwollaWebhook hm p secret sig raw now db).2 = db) ∧
    (∀ evt, p raw = some evt →
      (∀ i ∈ db.invoices, i.dwolla_transfer_href ≠ some (evt.href.getD "")) →
      (dwollaWebhook hm p secret sig raw now db).2 = db) := by
  have hbase : ∀ evt, p raw = some evt →
      (dwollaWebhook hm p secret sig raw now db).2
        = if ¬ jsTruthy evt.href ∨ ¬ jsTruthy evt.topic then db
          else processTransferEvent evt now db := by
    intro evt hp
    unfold dwollaWebhook
    rw [hver, hp]
    dsimp only
    split_ifs <;> rfl
  refine ⟨?_, ?_, ?_, ?_, ?_⟩
  · unfold dwollaWebhook
    rw [hver]
    cases hp : p raw with
    | none => rfl
    | some evt =>
      dsimp only
      split_ifs <;> rfl
  · intro hp
    unfold dwollaWebhook
    rw [hver, hp]
  · intro evt hp h
    have hcond : ¬ jsTruthy evt.href ∨ ¬ jsTruthy evt.topic := by
      rcases h with h | h
      · exact Or.inl (by simp [h])
      · exact Or.inr (by simp [h])
    rw [hbase evt hp, if_pos hcond]
  · intro evt hp h1 h2
    rw [hbase evt hp]
    split_ifs with hc
    · rfl
    · simp [processTransferEvent, h1, h2]
  · intro evt hp hnom
    rw [hbase evt hp]
    split_ifs with hc
    · rfl
    · unfold processTransferEvent
      split_ifs with t1 t2
      · rw [applyTransferTopic_no_match _ _ _ _ hnom]
      · rw [applyTransferTopic_no_match _ _ _ _ hnom]
      · rfl

/-- Witness for C8 at a concrete input: an authenticated completion
notification for transfer reference "NOPE", which matches no invoice of
`sampleDB`, is acknowledged with 200 and writes nothing. -/
theorem c8_always_acknowledges_witness :
    (dwollaWebhook (hmacConst "d")
        (parseEventConst (some "NOPE") (some "transfer_completed"))
        none none "raw" 5 sampleDB).1 = 200 ∧
    (dwollaWebhook (hmacConst "d")
        (parseEventConst (some "NOPE") (some "transfer_completed"))
        none none "raw" 5 sampleDB).2 = sampleDB :=
  have h := c8_always_acknowledges (hmacConst "d")
    (parseEventConst (some "NOPE") (some "transfer_completed"))
    none none "raw" 5 sampleDB rfl
  ⟨h.1, h.2.2.2.2 { href := some "NOPE", topic := some "transfer_completed" }
    rfl (by decide)⟩

/-- Counterexample to C7 as stated: with the signing secret unset, the
reconciler skips verification entirely, so a notification whose signature
header "garbage" matches no keyed digest of the payload still gets its
invoice status update applied (the invoice of `initiatedInvoiceDB` moves
to "completed"), contradicting that no status update is ever applied for
a notification whose signature does not match. -/
theorem c7_unset_secret_counterexample :
    ((dwollaWebhook (hmacConst "digest")
        (parseEventConst (some "H1") (some "transfer_completed"))
        none (some "garbage") "raw" 7 initiatedInvoiceDB).2.invoices.map
          Invoice.status = ["completed"]) ∧
    "garbage" ≠ hmacConst "digest" "" "raw" := by
  exact ⟨by decide, by decide⟩

/-- C7 amended: when the signing secret is configured, authenticity is a
keyed digest comparison over the raw payload bytes, and a missing or
mismatching signature header produces no state change — the request is
answered 401 (or 200 through the exception path when the digest lengths
differ) and verification never succeeds; only when the secret is unset is
verification skipped and the notification processed unchecked. -/
theorem c7_signature_rejection_when_secret_set (hm : String → String → String)
    (p : String → Option DwollaEvent) (secret sig : Option String)
    (raw : String) (now : Int) (db : DB)
    (hset : jsTruthy secret = true)
    (hbad : sig ≠ some (hm (secret.getD "") raw)) :
    (dwollaWebhook hm p secret sig raw now db).2 = db ∧
    ((dwollaWebhook hm p secret sig raw now db).1 = 401 ∨
      (dwollaWebhook hm p secret sig raw now db).1 = 200) ∧
    verifyDwollaWebhookSignature hm secret sig raw ≠ Except.ok true := by
  have hv : verifyDwollaWebhookSignature hm secret sig raw = Except.error ()
      ∨ verifyDwollaWebhookSignature hm secret sig raw = Except.ok false := by
    unfold verifyDwollaWebhookSignature
    rw [if_neg (by simp [hset])]
    cases sig with
    | none => exact Or.inr rfl
    | some s =>
      have hs : s ≠ hm (secret.getD "") raw := by
        intro h
        exact hbad (by rw [h])
      unfold timingSafeEqual
      by_cases hl : s.length = (hm (secret.getD "") raw).length
      · exact Or.inr (by simp [hl, hs])
      · exact Or.inl (by simp [hl])
  rcases hv with hv | hv <;>
    exact ⟨by simp [dwollaWebhook, hv], by simp [dwollaWebhook, hv],
      by simp [hv]⟩

/-- Witness for the amended C7 at a concrete input: with secret "sec" set
and signature "bad" differing from the digest "digest" of the payload, the
handler leaves `initiatedInvoiceDB` unchanged and verification fails. -/
theorem c7_signature_rejection_witness :
    (dwollaWebhook (hmacConst "digest")
        (parseEventConst (some "H1") (some "transfer_completed"))
        (some "sec") (some "bad") "raw" 7 initiatedInvoiceDB).2
      = initiatedInvoiceDB ∧
    ((dwollaWebhook (hmacConst "digest")
        (parseEventConst (some "H1") (some "transfer_completed"))
        (some "sec") (some "bad") "raw" 7 initiatedInvoiceDB).1 = 401 ∨
      (dwollaWebhook (hmacConst "digest")
        (parseEventConst (some "H1") (some "transfer_completed"))
        (some "sec") (some "bad") "raw" 7 initiatedInvoiceDB).1 = 200) ∧
    verifyDwollaWebhookSignature (hmacConst "digest") (some "sec")
        (some "bad") "raw" ≠ Except.ok true :=
  c7_signature_rejection_when_secret_set (hmacConst "digest")
    (parseEventConst (some "H1") (some "transfer_completed"))
    (some "sec") (some "bad") "raw" 7 initiatedInvoiceDB
    (by decide) (by decide)

/-- Counterexample to C4 as stated: the UPDATE guard is only
`status != target`, not `status = 'initiated'`, so a transfer_completed
notification arriving while the invoice is already in the terminal state
"failed" does change its status to "completed". -/
theorem c4_terminal_state_counterexample :
    failedInvoiceDB.invoices.map Invoice.status = ["failed"] ∧
    ((dwollaWebhook (hmacConst "digest")
        (parseEventConst (some "H1") (some "transfer_completed"))
        none none "raw" 77 failedInvoiceDB).2.invoices.map Invoice.status
      = ["completed"]) := by
  exact ⟨by decide, by decide⟩

/-- C4 amended: a completed (resp. failed) notification moves every
invoice carrying the matching transfer reference whose status is not
already the target to the target status — including out of the other
terminal state — and rows already at the target or without the matching
reference are untouched, so re-delivering the same notification performs
exactly one transition: the second delivery changes nothing and returns
the same acknowledgement. -/
theorem c4_status_transition_behavior (hm : String → String → String)
    (p : String → Option DwollaEvent) (secret sig : Option String)
    (raw : String) (now1 now2 : Int) (db : DB) :
    (dwollaWebhook hm p secret sig raw now2
        (dwollaWebhook hm p secret sig raw now1 db).2).2
      = (dwollaWebhook hm p secret sig raw now1 db).2 ∧
    (dwollaWebhook hm p secret sig raw now2
        (dwollaWebhook hm p secret sig raw now1 db).2).1
      = (dwollaWebhook hm p secret sig raw now1 db).1 ∧
    (∀ i : Invoice, ∀ target href : String, ∀ n : Int,
      i.status = target → transferTopicUpdate target href n i = i) ∧
    (∀ i : Invoice, ∀ target href : String, ∀ n : Int,
      i.dwolla_transfer_href ≠ some href →
      transferTopicUpdate target href n i = i) ∧
    (∀ i : Invoice, ∀ target href : String, ∀ n : Int,
      i.dwolla_transfer_href = some href → i.status ≠ target →
      transferTopicUpdate target href n i
        = { i with status := target, updated_at := n }) := by
  refine ⟨dwollaWebhook_idem hm p secret sig raw now1 now2 db,
    dwollaWebhook_status_db_independent hm p secret sig raw now2 now1 _ db,
    ?_, ?_, ?_⟩
  · intro i target href n h
    simp [transferTopicUpdate, h]
  · intro i target href n h
    simp [transferTopicUpdate, h]
  · intro i target href n h1 h2
    simp [transferTopicUpdate, h1, h2]

/-- Witness for the amended C4 at a concrete input: delivering the same
completion notification twice over `initiatedInvoiceDB` leaves the second
delivery a no-op; a row already at the target is untouched and an
initiated row with the matching reference transitions. -/
theorem c4_status_transition_witness :
    (dwollaWebhook (hmacConst "d")
        (parseEventConst (some "H1") (some "transfer_completed"))
        none none "raw" 8
        (dwollaWebhook (hmacConst "d")
          (parseEventConst (some "H1") (some "transfer_completed"))
          none none "raw" 7 initiatedInvoiceDB).2).2
      = (dwollaWebhook (hmacConst "d")
          (parseEventConst (some "H1") (some "transfer_completed"))
          none none "raw" 7 initiatedInvoiceDB).2 ∧
    transferTopicUpdate "completed" "H1" 9 (sampleInvoice "completed")
      = sampleInvoice "completed" ∧
    transferTopicUpdate "completed" "H1" 9 (sampleInvoice "initiated")
      = { sampleInvoice "initiated" with
            status := "completed", updated_at := 9 } :=
  have h := c4_status_transition_behavior (hmacConst "d")
    (parseEventConst (some "H1") (some "transfer_completed"))
    none none "raw" 7 8 initiatedInvoiceDB
  ⟨h.1, h.2.2.1 (sampleInvoice "completed") "completed" "H1" 9 (by decide),
    h.2.2.2.2 (sampleInvoice "initiated") "completed" "H1" 9 (by decide)
      (by decide)⟩

/-- C6 evaluated at the failing input: `dwollaPost` with the default three
attempts, where the first fetch answers HTTP 400 (a non-401 client error)
and the second succeeds.  The claim and the retry loop's own 4xx branch
intend an immediate terminal failure, but the thrown error is swallowed by
the per-attempt catch (which only rethrows on the last attempt), so the
call retries immediately and returns the second attempt's location: two
attempts used, no backoff sleeps, no cache clear. -/
theorem c6_client_error_retried_eval :
    dwollaPost (fun n => if n = 1 then AttemptOutcome.httpErr 400 "Bad Request"
        else AttemptOutcome.ok (some "L")) 3
      = { result := Except.ok (some "L"), attemptsUsed := 2, delays := [],
          cacheCleared := 0 } := by
  rfl

theorem billWeek_def (db : DB) (start stop now : Int)
    (transfer : String → Except String (Option String)) :
    billWeek db start stop now transfer
      = (billingQuery db start stop).foldl (billStep transfer start stop now)
          (billWeekInit db (billingQuery db start stop)) := rfl

/-- C1: a UsageRecord's invoice reference is set at most once and never
overwritten, and a claimed record is never billed again.  First conjunct:
a billing run transforms the ledger by a pointwise map that touches only
rows whose `invoice_id` is null (a row already claimed keeps its exact
value).  Second conjunct: the qualifying row predicate of the billing
query and of the claim UPDATE only admits rows with a null invoice
reference.  Third conjunct: under the serial-sequence well-formedness of
the store, no invoice created by the run carries the id already referenced
by a claimed row, so a re-run over any window never creates a second
invoice claiming such a record.  The remaining conjuncts: the usage
recorder only appends to the ledger and the status webhook never writes
it, so no other operation can set or change an invoice reference. -/
theorem c1_no_double_billing (db : DB) (start stop now : Int)
    (transfer : String → Except String (Option String))
    (hwf : ∀ r ∈ db.usage_ledger, ∀ k, r.invoice_id = some k →
      k < db.next_invoice_id) :
    (∃ g, ClaimOnly g ∧
      (billWeek db start stop now transfer).db.usage_ledger
        = db.usage_ledger.map g) ∧
    (∀ cid r, inWindowUnbilled start stop cid r = true →
      r.invoice_id = none) ∧
    (∀ inv ∈ (billWeek db start stop now transfer).db.invoices,
      inv ∉ db.invoices →
      ∀ r ∈ db.usage_ledger, ∀ k, r.invoice_id = some k → inv.id ≠ k) ∧
    (∀ envBearer auth body, ∃ t,
      (ghlUsage envBearer auth body db).2.usage_ledger
        = db.usage_ledger ++ t) ∧
    (∀ hm p secret sig raw n,
      (dwollaWebhook hm p secret sig raw n db).2.usage_ledger
        = db.usage_ledger) := by
  refine ⟨?_, ?_, ?_, ?_, ?_⟩
  · exact billFold_ledger transfer start stop now (billingQuery db start stop)
      (billWeekInit db (billingQuery db start stop))
  · exact fun cid r h => (inWindowUnbilled_eq_true_iff.mp h).2.2.2
  · intro inv hmem hnot r hr k hk
    rcases billFold_inv_mem transfer start stop now
        (billingQuery db start stop)
        (billWeekInit db (billingQuery db start stop)) inv hmem with h2 | h2
    · exact absurd h2 hnot
    · have h3 := hwf r hr k hk
      have h4 : db.next_invoice_id ≤ inv.id := h2
      omega
  · exact fun envB auth body => ghlUsage_ledger_append envB auth body db
  · exact fun hm p secret sig raw n =>
      dwollaWebhook_ledger hm p secret sig raw n db

/-- Witness for C1 at a concrete input: over `sampleDB` (whose record
`sampleUsageBilled` is already claimed by invoice 1) a run of the window
`[0, 10)` with an always-successful transfer oracle transforms the ledger
by a claim-only map, `sampleUsageOpen` satisfies the qualifying predicate
precisely because its invoice reference is null, and the status webhook
leaves the ledger untouched. -/
theorem c1_no_double_billing_witness :
    (∃ g, ClaimOnly g ∧
      (billWeek sampleDB 0 10 99
          (fun _ => Except.ok (some "L"))).db.usage_ledger
        = sampleDB.usage_ledger.map g) ∧
    sampleUsageOpen.invoice_id = none ∧
    (dwollaWebhook (hmacConst "d")
        (parseEventConst (some "H1") (some "transfer_completed"))
        none none "raw" 4 sampleDB).2.usage_ledger
      = sampleDB.usage_ledger := by
  have h := c1_no_double_billing sampleDB 0 10 99
    (fun _ => Except.ok (some "L"))
    (by
      intro r hr k hk
      simp [sampleDB] at hr
      rcases hr with h | h
      · subst h
        simp [sampleUsageBilled] at hk
        simp [sampleDB]
        omega
      · subst h
        simp [sampleUsageOpen] at hk)
  exact ⟨h.1, h.2.1 "C1" sampleUsageOpen (by decide),
    h.2.2.2.2 (hmacConst "d")
      (parseEventConst (some "H1") (some "transfer_completed"))
      none none "raw" 4⟩

/-- C2: a failed transfer call rolls the per-customer transaction back
entirely.  First two conjuncts: when the oracle fails for a customer with
a positive amount, the step leaves the store exactly as it was (no invoice
row, no claimed usage, so the qualifying rows keep a null invoice
reference for the next run) and only counts the customer under failed with
the error message.  Third conjunct: every queried customer is accounted as
successful, failed or skipped — one failure never stops the remaining
customers.  Fourth conjunct: if every transfer fails, the whole run leaves
the store untouched. -/
theorem c2_transfer_failure_rollback (db : DB) (start stop now : Int)
    (transfer : String → Except String (Option String))
    (st : BillState) (row : BillingRow) (msg : String)
    (hfail : transfer row.crm_contact_id = Except.error msg)
    (hpos : 0 < jsRound (row.units * PRICE_PER_UNIT_CENTS)) :
    billStep transfer start stop now st row
      = { st with results := { st.results with
            failed := st.results.failed + 1,
            errors := st.results.errors ++ [(row.crm_contact_id, msg)] } } ∧
    (billStep transfer start stop now st row).db = st.db ∧
    ((billWeek db start stop now transfer).results.successful
      + (billWeek db start stop now transfer).results.failed
      + (billWeek db start stop now transfer).results.skipped
      = (billWeek db start stop now transfer).results.total) ∧
    ((∀ cid, ∃ m, transfer cid = Except.error m) →
      (billWeek db start stop now transfer).db = db) := by
  refine ⟨billStep_fail hpos hfail, by rw [billStep_fail hpos hfail], ?_, ?_⟩
  · obtain ⟨h1, h2⟩ := billFold_counts transfer start stop now
      (billingQuery db start stop)
      (billWeekInit db (billingQuery db start stop))
    have e1 : (billWeekInit db (billingQuery db
        start stop)).results.successful = 0 := rfl
    have e2 : (billWeekInit db (billingQuery db
        start stop)).results.failed = 0 := rfl
    have e3 : (billWeekInit db (billingQuery db
        start stop)).results.skipped = 0 := rfl
    have e4 : (billWeekInit db (billingQuery db start stop)).results.total
        = (billingQuery db start stop).length := rfl
    rw [e1, e2, e3] at h1
    rw [e4] at h2
    rw [billWeek_def]
    omega
  · intro hall
    exact billFold_db_allfail transfer start stop now
      (billingQuery db start stop) hall
      (billWeekInit db (billingQuery db start stop))

/-- Witness for C2 at a concrete input: an always-failing transfer oracle
over `sampleDB` and `sampleBillState`: the step only bumps the failed
counter with the message, the store is unchanged at the step and across
the whole run, and the run counters account for every queried customer. -/
theorem c2_transfer_failure_rollback_witness :
    billStep (fun _ => Except.error "boom") 0 10 99 sampleBillState sampleRow
      = { sampleBillState with results := { sampleBillState.results with
            failed := sampleBillState.results.failed + 1,
            errors := sampleBillState.results.errors
              ++ [(sampleRow.crm_contact_id, "boom")] } } ∧
    (billStep (fun _ => Except.error "boom") 0 10 99 sampleBillState
        sampleRow).db = sampleBillState.db ∧
    ((billWeek sampleDB 0 10 99
        (fun _ => Except.error "boom")).results.successful
      + (billWeek sampleDB 0 10 99
          (fun _ => Except.error "boom")).results.failed
      + (billWeek sampleDB 0 10 99
          (fun _ => Except.error "boom")).results.skipped
      = (billWeek sampleDB 0 10 99
          (fun _ => Except.error "boom")).results.total) ∧
    (billWeek sampleDB 0 10 99 (fun _ => Except.error "boom")).db
      = sampleDB := by
  have h := c2_transfer_failure_rollback sampleDB 0 10 99
    (fun _ => Except.error "boom") sampleBillState sampleRow "boom" rfl
    (by norm_num [jsRound, sampleRow, PRICE_PER_UNIT_CENTS])
  exact ⟨h.1, h.2.1, h.2.2.1, h.2.2.2 (fun cid => ⟨"boom", rfl⟩)⟩

/-- C5: the invoice amount and multiplicity.  First conjunct: a successful
customer step inserts exactly one invoice row whose amount is
`Math.round(units * PRICE_PER_UNIT_CENTS)` of the row's summed units, with
status "initiated" and the returned transfer reference.  Second conjunct:
a non-positive rounded amount only bumps the skipped counter — no error,
no write.  Third conjunct: every billing-query row carries exactly the sum
of units over that customer's qualifying records of the window, and that
sum is positive.  Fourth conjunct: the run adds exactly one invoice per
successful customer — the invoice count grows by the successful counter,
not by the number of usage events. -/
theorem c5_invoice_amount_and_multiplicity (db : DB) (start stop now : Int)
    (transfer : String → Except String (Option String))
    (st : BillState) (row : BillingRow) (loc : Option String)
    (hok : transfer row.crm_contact_id = Except.ok loc)
    (hpos : 0 < jsRound (row.units * PRICE_PER_UNIT_CENTS)) :
    (billStep transfer start stop now st row).db.invoices
      = st.db.invoices ++
        [{ id := st.db.next_invoice_id, crm_contact_id := row.crm_contact_id,
           period_start := start, period_end := stop,
           amount_cents := jsRound (row.units * PRICE_PER_UNIT_CENTS),
           dwolla_transfer_href := loc, status := "initiated",
           created_at := now, updated_at := now }] ∧
    (∀ st2 : BillState, ∀ row2 : BillingRow,
      jsRound (row2.units * PRICE_PER_UNIT_CENTS) ≤ 0 →
      billStep transfer start stop now st2 row2
        = { st2 with results := { st2.results with
              skipped := st2.results.skipped + 1 } }) ∧
    (∀ row2 ∈ billingQuery db start stop,
      row2.units = totalUnits db row2.crm_contact_id start stop ∧
      0 < totalUnits db row2.crm_contact_id start stop) ∧
    ((billWeek db start stop now transfer).db.invoices.length
      = db.invoices.length
        + (billWeek db start stop now transfer).results.successful) := by
  refine ⟨by rw [billStep_ok hpos hok],
    fun st2 row2 h => billStep_skip h, ?_, ?_⟩
  · intro row2 hrow
    unfold billingQuery at hrow
    obtain ⟨c, hc, hrow2⟩ := List.mem_map.mp hrow
    obtain ⟨hcm, hcp⟩ := List.mem_filter.mp hc
    subst hrow2
    simp only [Bool.and_eq_true, decide_eq_true_eq] at hcp
    exact ⟨rfl, hcp.2⟩
  · obtain h := billFold_invlen transfer start stop now
      (billingQuery db start stop)
      (billWeekInit db (billingQuery db start stop))
    have e1 : (billWeekInit db (billingQuery db
        start stop)).results.successful = 0 := rfl
    have e2 : (billWeekInit db (billingQuery db start stop)).db.invoices
        = db.invoices := rfl
    rw [e1, e2] at h
    rw [billWeek_def]
    omega

/-- Witness for C5 at a concrete input: over `sampleDB` a successful step
for `sampleRow` appends exactly the invoice with the rounded amount, the
tiny-units row is skipped, the query row for customer "C1" carries the sum
of its qualifying records, and the run grows the invoices table by its
successful count. -/
theorem c5_invoice_amount_witness :
    (billStep (fun _ => Except.ok (some "L")) 0 10 99 sampleBillState
        sampleRow).db.invoices
      = sampleBillState.db.invoices ++
        [{ id := sampleBillState.db.next_invoice_id,
           crm_contact_id := sampleRow.crm_contact_id,
           period_start := 0, period_end := 10,
           amount_cents := jsRound (sampleRow.units * PRICE_PER_UNIT_CENTS),
           dwolla_transfer_href := some "L", status := "initiated",
           created_at := 99, updated_at := 99 }] ∧
    billStep (fun _ => Except.ok (some "L")) 0 10 99 sampleBillState
        sampleTinyRow
      = { sampleBillState with results := { sampleBillState.results with
            skipped := sampleBillState.results.skipped + 1 } } ∧
    (sampleQueryRow.units = totalUnits sampleDB
        sampleQueryRow.crm_contact_id 0 10 ∧
      0 < totalUnits sampleDB sampleQueryRow.crm_contact_id 0 10) ∧
    ((billWeek sampleDB 0 10 99
        (fun _ => Except.ok (some "L"))).db.invoices.length
      = sampleDB.invoices.length
        + (billWeek sampleDB 0 10 99
            (fun _ => Except.ok (some "L"))).results.successful) := by
  have h := c5_invoice_amount_and_multiplicity sampleDB 0 10 99
    (fun _ => Except.ok (some "L")) sampleBillState sampleRow (some "L") rfl
    (by norm_num [jsRound, sampleRow, PRICE_PER_UNIT_CENTS])
  have hled : sampleDB.usage_ledger = [sampleUsageBilled, sampleUsageOpen] := rfl
  have hcus : sampleDB.customers = [sampleCustomer] := rfl
  have ht : totalUnits sampleDB "C1" 0 10 = 2 := by
    unfold totalUnits
    rw [hled]
    norm_num [inWindowUnbilled, sampleUsageBilled, sampleUsageOpen,
      List.filter_cons, List.filter_nil, Option.some_ne_none]
  have hq : billingQuery sampleDB 0 10 = [sampleQueryRow] := by
    unfold billingQuery
    rw [hcus]
    norm_num [sampleCustomer, sampleQueryRow, List.filter_cons,
      List.filter_nil, ht]
  exact ⟨h.1,
    h.2.1 sampleBillState sampleTinyRow
      (by norm_num [jsRound, sampleTinyRow, PRICE_PER_UNIT_CENTS]),
    h.2.2.1 sampleQueryRow (by rw [hq]; exact List.mem_singleton.mpr rfl),
    h.2.2.2⟩

end DwollaBilling
